import Mathlib

/-!
Verification of the samftp_cli directory-listing cache and resilient-fetch
pipeline (src/samftp_cli/ftp_client.py, src/samftp_cli/cache.py,
src/samftp_cli/data_models.py), via a shallow embedding in Lean 4.

Modelling conventions:
- Python floats carrying epoch timestamps are modelled as `Int` seconds.
- HTML bytes are modelled at the granularity BeautifulSoup delivers to
  `parse_html`: the list of matched name cells, each a list of anchors.
  An anchor carries its display text and an optional href attribute
  (`none` models an anchor element with no href attribute).
- `hashlib.sha256(url).hexdigest()` is modelled by an ideal collision-free
  digest (the identity on strings); every claim in scope depends only on
  the digest being a deterministic function of the URL string.
- `urllib.parse.urljoin` is modelled by a simplified RFC-3986 resolution
  covering scheme-relative, absolute-path and relative references; no
  claim in scope depends on its internals, only on both the code path and
  the spec description using the same resolution function.
- Raising an exception is modelled with `Except`; the distinguished
  Python-level `KeyError` (from `a_tag['href']` on an attribute-less tag)
  and `TypeError` (from `raise None`) are modelled as explicit values.
-/

set_option autoImplicit false

namespace SamFTP

/-- data_models.Folder: `{name, url}`. -/
structure Folder where
  name : String
  url : String
  deriving DecidableEq, Repr

/-- data_models.File: `{name, url, size?}` (size optional, dropped by the
cache serialisation). -/
structure File where
  name : String
  url : String
  size : Option Int := none
  deriving DecidableEq, Repr

/-- A stored `{name, url}` pair, the JSON shape written by
`cache_listing` for both folders and files. -/
structure NameUrl where
  name : String
  url : String
  deriving DecidableEq, Repr

/-- Model of `urllib.parse.urljoin` (Python stdlib): simplified RFC-3986
reference resolution for http(s) URLs. Claims in scope use it only as an
opaque deterministic resolution function shared between the code model
and the spec-side description. -/
def urljoin (base rel : String) : String :=
  if rel.isEmpty then base
  else if (rel.splitOn "://").length ≥ 2 then rel
  else
    match base.splitOn "://" with
    | [scheme, rest] =>
      let parts := rest.splitOn "/"
      let host := parts.headD ""
      let pathSegs := parts.tail
      if rel.startsWith "/" then scheme ++ "://" ++ host ++ rel
      else
        let baseDir := pathSegs.dropLast
        let relSegs := rel.splitOn "/"
        let merged := baseDir ++ relSegs
        let resolved := merged.foldl
          (fun acc seg =>
            if seg = "." then acc
            else if seg = ".." then acc.dropLast
            else acc ++ [seg]) []
        let resolved :=
          if relSegs.getLast? = some ".." ∨ relSegs.getLast? = some "." then
            resolved ++ [""]
          else resolved
        scheme ++ "://" ++ host ++ "/" ++ String.intercalate "/" resolved
    | _ => rel

/-- Model of `CacheManager._url_to_hash` (`hashlib.sha256` hexdigest),
as an ideal collision-free digest of the URL string. -/
def url_to_hash (url : String) : String := url

/-!  ## HTML listing parser (ftp_client.parse_html)  -/

/-- An anchor element inside a matched name cell: display text and the
optional href attribute. -/
structure Anchor where
  text : String
  href : Option String
  deriving DecidableEq, Repr

/-- A `<td class="fb-n">` name cell: the anchors it contains, in document
order. -/
abbrev Cell := List Anchor

/-- The portion of the parsed HTML document that `parse_html` consumes:
the matched name cells in document order. -/
abbrev Doc := List Cell

/-- A Python-level (non-taxonomy) exception escaping the parser. -/
inductive PyError where
  /-- `KeyError` from `a_tag['href']` on an anchor with no href. -/
  | keyError
  deriving DecidableEq, Repr

/-- The anchor loop of `parse_html` over one cell: reads `a_tag.text` and
`a_tag['href']` (KeyError when the attribute is absent), skips hrefs
starting with `..`, resolves against the base URL and classifies by
trailing slash, preserving order. -/
def parse_cell (base : String) : List Anchor → Except PyError (List Folder × List File)
  | [] => .ok ([], [])
  | a :: rest =>
    match a.href with
    | none => .error .keyError
    | some href =>
      if href.startsWith ".." then parse_cell base rest
      else
        match parse_cell base rest with
        | .error e => .error e
        | .ok (fs, gs) =>
          if href.endsWith "/" then
            .ok (⟨a.text, urljoin base href⟩ :: fs, gs)
          else
            .ok (fs, ⟨a.text, urljoin base href, none⟩ :: gs)

/-- The cell loop of `parse_html`: concatenates the per-cell results in
document order. -/
def parse_cells (base : String) : Doc → Except PyError (List Folder × List File)
  | [] => .ok ([], [])
  | c :: cs =>
    match parse_cell base c with
    | .error e => .error e
    | .ok (fs, gs) =>
      match parse_cells base cs with
      | .error e => .error e
      | .ok (fs', gs') => .ok (fs ++ fs', gs ++ gs')

/-- ftp_client.parse_html: prepends the synthetic parent folder
`{"..", urljoin(base, "..")}` and then scans every matched name cell.
An uncaught `KeyError` is modelled as `Except.error`. -/
def parse_html (base : String) (doc : Doc) : Except PyError (List Folder × List File) :=
  match parse_cells base doc with
  | .error e => .error e
  | .ok (fs, gs) => .ok (⟨"..", urljoin base ".."⟩ :: fs, gs)

/-- Spec-side classification of a single anchor as a folder (written from
the spec's words in section 4.3, for comparison with `parse_html`): skip
a missing href and a href starting with `..`; classify by trailing
slash; resolve against the base. -/
def specAnchorFolder (base : String) (a : Anchor) : Option Folder :=
  match a.href with
  | none => none
  | some h =>
    if h.startsWith ".." then none
    else if h.endsWith "/" then some ⟨a.text, urljoin base h⟩
    else none

/-- Spec-side classification of a single anchor as a file (from the
spec's words in section 4.3). -/
def specAnchorFile (base : String) (a : Anchor) : Option File :=
  match a.href with
  | none => none
  | some h =>
    if h.startsWith ".." then none
    else if h.endsWith "/" then none
    else some ⟨a.text, urljoin base h, none⟩

/-- Spec-side parse result (from the spec's words): the synthetic parent
entry first, then the anchors of all cells classified in document
order. -/
def specParse (base : String) (doc : Doc) : List Folder × List File :=
  (⟨"..", urljoin base ".."⟩ :: doc.flatten.filterMap (specAnchorFolder base),
   doc.flatten.filterMap (specAnchorFile base))

/-!  ## Resilient fetcher (ftp_client.fetch_html_async / fetch_html_with_retry)  -/

/-- The typed error taxonomy of ftp_client (subclasses of
`FTPClientError`), each carrying its message string. -/
inductive FetchError where
  | connectionError (msg : String)
  | serverError (msg : String)
  | authenticationError (msg : String)
  | notFoundError (msg : String)
  | timeoutError (msg : String)
  deriving DecidableEq, Repr

/-- The kind of a taxonomy error, forgetting the message. -/
inductive ErrorKind where
  | connection
  | server
  | authentication
  | notFound
  | timeout
  deriving DecidableEq, Repr

/-- Forget the message of a taxonomy error. -/
def FetchError.kind : FetchError → ErrorKind
  | .connectionError _ => .connection
  | .serverError _ => .server
  | .authenticationError _ => .authentication
  | .notFoundError _ => .notFound
  | .timeoutError _ => .timeout

/-- The classification outcome of a fetch: `none` for success, or the
kind of the single typed error raised. -/
def resultKind (r : Except FetchError (List Nat)) : Option ErrorKind :=
  match r with
  | .ok _ => none
  | .error e => some e.kind

/-- What the transport layer delivers for one request: an HTTP response
(status and body bytes), or one of the transport-level failures that the
`except` clauses of `fetch_html_async` distinguish. -/
inductive TransportEvent where
  /-- A completed HTTP response with its status and body bytes. -/
  | response (status : Nat) (body : List Nat)
  /-- `asyncio.TimeoutError`. -/
  | timedOut
  /-- `aiohttp.ClientConnectorError` (DNS, refused, reset). -/
  | connectorError (msg : String)
  /-- Any other `aiohttp.ClientError`. -/
  | clientError (msg : String)
  deriving DecidableEq, Repr

/-- ftp_client.fetch_html_async: classifies the transport event into the
typed taxonomy following the source's branch order (401, 403, 404,
>= 500, >= 400, success; then the three `except` clauses). -/
def fetch_html_async (url : String) (timeout : Nat) (ev : TransportEvent) :
    Except FetchError (List Nat) :=
  match ev with
  | .response status body =>
    if status = 401 then
      .error (.authenticationError "Authentication required - invalid or missing credentials")
    else if status = 403 then
      .error (.authenticationError "Access forbidden - check permissions")
    else if status = 404 then
      .error (.notFoundError ("Resource not found: " ++ url))
    else if status ≥ 500 then
      .error (.serverError ("Server error (HTTP " ++ toString status ++ ")"))
    else if status ≥ 400 then
      .error (.connectionError ("Client error (HTTP " ++ toString status ++ ")"))
    else
      .ok body
  | .timedOut =>
    .error (.timeoutError ("Request timeout after " ++ toString timeout ++ " seconds"))
  | .connectorError m =>
    .error (.connectionError ("Connection failed - check network and server address: " ++ m))
  | .clientError m =>
    .error (.connectionError ("Request error: " ++ m))

/-- Whether the retry loop's `except (ConnectionError, TimeoutError,
ServerError)` clause catches the error. -/
def isRetryable : FetchError → Bool
  | .connectionError _ => true
  | .serverError _ => true
  | .timeoutError _ => true
  | .authenticationError _ => false
  | .notFoundError _ => false

/-- What `fetch_html_with_retry` can raise: a taxonomy error, or the
`TypeError` produced by `raise last_error` when `last_error is None`. -/
inductive RaiseVal where
  | ftp (e : FetchError)
  | typeError
  deriving DecidableEq, Repr

instance {ε α : Type} [DecidableEq ε] [DecidableEq α] : DecidableEq (Except ε α) := fun x y =>
  match x, y with
  | .ok a, .ok b => if h : a = b then .isTrue (by rw [h]) else .isFalse (by simp [h])
  | .error a, .error b => if h : a = b then .isTrue (by rw [h]) else .isFalse (by simp [h])
  | .ok _, .error _ => .isFalse (by simp)
  | .error _, .ok _ => .isFalse (by simp)

/-- The result of a run of the retry loop: the returned bytes or the
raised value, together with the list of back-off sleeps issued, in
order. -/
structure RetryTrace where
  result : Except RaiseVal (List Nat)
  sleeps : List Nat
  deriving DecidableEq, Repr

/-- The `for attempt in range(max_retries)` loop of
`fetch_html_with_retry`. `attempts i` is the outcome of the i-th call to
`fetch_html_async`; `remaining` counts the iterations left
(`max_retries - i`), making the recursion structural; `lastError`
carries the `last_error` variable. A retryable failure is recorded and,
unless the attempt is the last, a sleep of `2 ^ i` seconds is issued
before the next iteration; a non-retryable failure escapes the loop
uncaught; when the loop exhausts, `raise last_error` raises the recorded
error, or `TypeError` when `last_error` is still `None`. -/
def retryGo (attempts : Nat → Except FetchError (List Nat)) (max_retries : Nat) :
    Nat → Nat → Option FetchError → RetryTrace
  | _, 0, lastError =>
    match lastError with
    | some e => ⟨.error (.ftp e), []⟩
    | none => ⟨.error .typeError, []⟩
  | i, r + 1, _ =>
    match attempts i with
    | .ok b => ⟨.ok b, []⟩
    | .error e =>
      if isRetryable e then
        let rest := retryGo attempts max_retries (i + 1) r (some e)
        if i < max_retries - 1 then ⟨rest.result, 2 ^ i :: rest.sleeps⟩
        else rest
      else ⟨.error (.ftp e), []⟩

/-- ftp_client.fetch_html_with_retry, as a function of the sequence of
per-attempt outcomes. -/
def fetch_html_with_retry (attempts : Nat → Except FetchError (List Nat))
    (max_retries : Nat) : RetryTrace :=
  retryGo attempts max_retries 0 max_retries none

/-!  ## Two-tier listing store (cache.CacheManager)

Python dicts keyed by the url hash are modelled as association lists
with insert-or-replace semantics (`dictSet`), preserving insertion
order like a Python dict.  -/

/-- `d.get(k)` / `k in d` on a Python dict modelled as an association
list: the value at the first matching key. -/
def dictGet {α : Type} (k : String) : List (String × α) → Option α
  | [] => none
  | (k', v) :: rest => if k' = k then some v else dictGet k rest

/-- `d[k] = v` on a Python dict: replace in place if the key is present,
else append. -/
def dictSet {α : Type} (k : String) (v : α) : List (String × α) → List (String × α)
  | [] => [(k, v)]
  | (k', v') :: rest =>
    if k' = k then (k', v) :: rest else (k', v') :: dictSet k v rest

/-- `del d[k]` on a Python dict: removes the key. (A Python dict holds
each key at most once, so removing every matching pair of the
association list coincides with deleting the single binding.) -/
def dictDel {α : Type} (k : String) : List (String × α) → List (String × α)
  | [] => []
  | (k', v') :: rest =>
    if k' = k then dictDel k rest else (k', v') :: dictDel k rest

/-- One cached entry, the JSON value shape
`{url, timestamp, folders: [{name, url}], files: [{name, url}]}`. -/
structure Entry where
  url : String
  timestamp : Int
  folders : List NameUrl
  files : List NameUrl
  deriving DecidableEq, Repr

/-- The durable cache file: missing, containing malformed JSON (or
unreadable), or a valid JSON document. -/
inductive DiskFile where
  | missing
  | malformed
  | valid (data : List (String × Entry))
  deriving DecidableEq, Repr

/-- The state of one `CacheManager`: the in-process tier
(`_memory_cache`) and the durable file. -/
structure CacheState where
  memory : List (String × Entry)
  disk : DiskFile
  deriving DecidableEq, Repr

/-- The state of a freshly constructed `CacheManager` whose cache file
does not exist yet. -/
def initState : CacheState := ⟨[], .missing⟩

/-- cache.CacheManager._load_cache_from_disk: a missing file loads as
`{}`; `json.JSONDecodeError` and `IOError` are caught and also yield
`{}`. -/
def load_cache_from_disk : DiskFile → List (String × Entry)
  | .missing => []
  | .malformed => []
  | .valid data => data

/-- cache.CacheManager._save_cache_to_disk (successful write). -/
def save_cache_to_disk (data : List (String × Entry)) : DiskFile :=
  .valid data

/-- cache.CacheManager._is_expired: `(time.time() - timestamp) > ttl`. -/
def is_expired (ttl now timestamp : Int) : Bool :=
  now - timestamp > ttl

/-- Rebuild the `(folders, files)` return value from a stored entry:
`Folder(**f)` and `File(**f)` (File regains `size = None`). -/
def entryListing (e : Entry) : List Folder × List File :=
  (e.folders.map fun f => ⟨f.name, f.url⟩,
   e.files.map fun f => ⟨f.name, f.url, none⟩)

/-- cache.CacheManager.get_cached_listing at time `now`: memory tier
first (fresh hit returns; expired entry deleted from memory), then the
durable document (fresh hit promoted into memory and returned; expired
entry deleted from the document, which is saved back). Returns the
listing, if any, and the resulting state. -/
def get_cached_listing (ttl : Int) (st : CacheState) (url : String) (now : Int) :
    Option (List Folder × List File) × CacheState :=
  let h := url_to_hash url
  let memPhase : Option (List Folder × List File) × CacheState :=
    match dictGet h st.memory with
    | some entry =>
      if ¬ is_expired ttl now entry.timestamp then
        (some (entryListing entry), st)
      else
        (none, { st with memory := dictDel h st.memory })
    | none => (none, st)
  match memPhase with
  | (some r, st') => (some r, st')
  | (none, st') =>
    let cache_data := load_cache_from_disk st'.disk
    match dictGet h cache_data with
    | some entry =>
      if ¬ is_expired ttl now entry.timestamp then
        (some (entryListing entry),
         { st' with memory := dictSet h entry st'.memory })
      else
        (none, { st' with disk := save_cache_to_disk (dictDel h cache_data) })
    | none => (none, st')

/-- cache.CacheManager.cache_listing at time `now`: build the entry
(dropping file sizes), write it into the memory tier, and read-modify-
write the durable document. -/
def cache_listing (st : CacheState) (url : String)
    (folders : List Folder) (files : List File) (now : Int) : CacheState :=
  let h := url_to_hash url
  let entry : Entry :=
    { url := url
      timestamp := now
      folders := folders.map fun f => ⟨f.name, f.url⟩
      files := files.map fun f => ⟨f.name, f.url⟩ }
  let memory := dictSet h entry st.memory
  let cache_data := load_cache_from_disk st.disk
  { memory := memory, disk := save_cache_to_disk (dictSet h entry cache_data) }

/-- cache.CacheManager.invalidate_cache: delete from memory; delete from
the durable document and save it back only when the key was present
there. -/
def invalidate_cache (st : CacheState) (url : String) : CacheState :=
  let h := url_to_hash url
  let memory := dictDel h st.memory
  let cache_data := load_cache_from_disk st.disk
  if (dictGet h cache_data).isSome then
    { memory := memory, disk := save_cache_to_disk (dictDel h cache_data) }
  else
    { st with memory := memory }

/-- cache.CacheManager.clear_all_cache: empty the memory tier and unlink
the durable file. -/
def clear_all_cache (_st : CacheState) : CacheState :=
  ⟨[], .missing⟩

/-- cache.CacheManager.cleanup_expired at time `now`: filter the durable
document, save it back only when something was removed, return the
removed count. Does not touch the memory tier. -/
def cleanup_expired (ttl : Int) (st : CacheState) (now : Int) : Nat × CacheState :=
  let cache_data := load_cache_from_disk st.disk
  let cleaned := cache_data.filter fun p => ¬ is_expired ttl now p.2.timestamp
  let removed := cache_data.length - cleaned.length
  if removed > 0 then
    (removed, { st with disk := save_cache_to_disk cleaned })
  else
    (removed, st)

/-!  ## Store operation sequences (for the two-tier invariant)  -/

/-- One store operation, with the wall-clock time at which it runs where
relevant. -/
inductive CacheOp where
  | put (url : String) (folders : List Folder) (files : List File) (now : Int)
  | lookup (url : String) (now : Int)
  | invalidate (url : String)
  | clearAll
  | purgeExpired (now : Int)
  deriving DecidableEq, Repr

/-- Whether the operation is the explicit expired-entry sweep. -/
def CacheOp.isPurge : CacheOp → Bool
  | .purgeExpired _ => true
  | _ => false

/-- Run one store operation on the state. -/
def applyOp (ttl : Int) (st : CacheState) : CacheOp → CacheState
  | .put url folders files now => cache_listing st url folders files now
  | .lookup url now => (get_cached_listing ttl st url now).2
  | .invalidate url => invalidate_cache st url
  | .clearAll => clear_all_cache st
  | .purgeExpired now => (cleanup_expired ttl st now).2

/-- Run a sequence of store operations from a state. -/
def applyOps (ttl : Int) (st : CacheState) : List CacheOp → CacheState
  | [] => st
  | op :: ops => applyOps ttl (applyOp ttl st op) ops

/-- The two-tier subset check: every key of the in-process tier is
present in the durable document. -/
def tierSubset (st : CacheState) : Bool :=
  st.memory.all fun p => (dictGet p.1 (load_cache_from_disk st.disk)).isSome

/-!  ## Cache-aware orchestrator (ftp_client.fetch_html_cached)  -/

/-- What the orchestrator can raise: a taxonomy error from the fetch
stage (`RaiseVal`, including the degenerate `TypeError`), or the
parser's `KeyError`, which no `except` clause in `fetch_html_cached`
catches. -/
inductive CachedError where
  | fetch (e : RaiseVal)
  | py (e : PyError)
  deriving DecidableEq, Repr

/-- ftp_client.fetch_html_cached at time `now`, as a function of the
outcome of its `fetch_html_with_retry` call (`fetchResult`, carrying the
parsed document on success): unless `force_refresh`, try the cache and
return a hit; otherwise run the fetch, parse, cache the result and
return it. Errors propagate; nothing is cached on an error path. -/
def fetch_html_cached (ttl : Int) (st : CacheState) (url : String)
    (force_refresh : Bool) (fetchResult : Except FetchError Doc) (now : Int) :
    Except CachedError (List Folder × List File) × CacheState :=
  let cachePhase : Option (List Folder × List File) × CacheState :=
    if force_refresh then (none, st)
    else get_cached_listing ttl st url now
  match cachePhase with
  | (some cached, st') => (.ok cached, st')
  | (none, st') =>
    match fetchResult with
    | .error e => (.error (.fetch (.ftp e)), st')
    | .ok doc =>
      match parse_html url doc with
      | .error pe => (.error (.py pe), st')
      | .ok (folders, files) =>
        (.ok (folders, files), cache_listing st' url folders files now)

/-!  ## Association-list (Python dict) lemmas  -/

theorem dictGet_set_self {α : Type} (k : String) (v : α) (l : List (String × α)) :
    dictGet k (dictSet k v l) = some v := by
  induction l with
  | nil => simp [dictGet, dictSet]
  | cons p rest ih =>
    obtain ⟨k', v'⟩ := p
    by_cases h : k' = k <;> simp [dictGet, dictSet, h, ih]

theorem dictGet_set_ne {α : Type} (k k' : String) (v : α) (l : List (String × α))
    (h : k' ≠ k) : dictGet k' (dictSet k v l) = dictGet k' l := by
  induction l with
  | nil => simp [dictGet, dictSet, Ne.symm h]
  | cons p rest ih =>
    obtain ⟨k₀, v₀⟩ := p
    by_cases h₀ : k₀ = k
    · subst h₀
      simp [dictGet, dictSet, Ne.symm h]
    · by_cases h₁ : k₀ = k'
      · simp [dictGet, dictSet, h₀, h₁, h]
      · simp [dictGet, dictSet, h₀, h₁, ih]

theorem dictGet_del_self {α : Type} (k : String) (l : List (String × α)) :
    dictGet k (dictDel k l) = none := by
  induction l with
  | nil => simp [dictGet, dictDel]
  | cons p rest ih =>
    obtain ⟨k', v'⟩ := p
    by_cases h : k' = k <;> simp [dictGet, dictDel, h, ih]

theorem dictGet_del_ne {α : Type} (k k' : String) (l : List (String × α))
    (h : k' ≠ k) : dictGet k' (dictDel k l) = dictGet k' l := by
  induction l with
  | nil => simp [dictGet, dictDel]
  | cons p rest ih =>
    obtain ⟨k₀, v₀⟩ := p
    by_cases h₀ : k₀ = k
    · subst h₀
      simp [dictGet, dictDel, Ne.symm h, ih]
    · by_cases h₁ : k₀ = k'
      · simp [dictGet, dictDel, h₀, h₁, h]
      · simp [dictGet, dictDel, h₀, h₁, ih]

theorem dictGet_del_submap {α : Type} (k k' : String) (v : α) (l : List (String × α))
    (h : dictGet k' (dictDel k l) = some v) : dictGet k' l = some v := by
  by_cases hk : k' = k
  · subst hk; rw [dictGet_del_self] at h; exact absurd h (by simp)
  · rwa [dictGet_del_ne k k' l hk] at h

theorem mem_dictSet {α : Type} (k : String) (v : α) (l : List (String × α))
    (p : String × α) (h : p ∈ dictSet k v l) : p.1 = k ∨ p ∈ l := by
  induction l with
  | nil =>
    simp [dictSet] at h
    subst h; exact Or.inl rfl
  | cons q rest ih =>
    obtain ⟨k₀, v₀⟩ := q
    by_cases h₀ : k₀ = k
    · subst h₀
      simp [dictSet] at h
      rcases h with h | h
      · subst h; exact Or.inl rfl
      · exact Or.inr (by simp [h])
    · simp [dictSet, h₀] at h
      rcases h with h | h
      · subst h; exact Or.inr (by simp)
      · rcases ih h with h' | h'
        · exact Or.inl h'
        · exact Or.inr (by simp [h'])

theorem mem_dictDel {α : Type} (k : String) (l : List (String × α))
    (p : String × α) (h : p ∈ dictDel k l) : p ∈ l ∧ p.1 ≠ k := by
  induction l with
  | nil => simp [dictDel] at h
  | cons q rest ih =>
    obtain ⟨k₀, v₀⟩ := q
    by_cases h₀ : k₀ = k
    · subst h₀
      simp [dictDel] at h
      rcases ih h with ⟨h₁, h₂⟩
      exact ⟨by simp [h₁], h₂⟩
    · simp [dictDel, h₀] at h
      rcases h with h | h
      · subst h; exact ⟨by simp, h₀⟩
      · rcases ih h with ⟨h₁, h₂⟩
        exact ⟨by simp [h₁], h₂⟩

theorem mem_dictGet_isSome {α : Type} (l : List (String × α)) (p : String × α)
    (h : p ∈ l) : (dictGet p.1 l).isSome := by
  induction l with
  | nil => simp at h
  | cons q rest ih =>
    obtain ⟨k₀, v₀⟩ := q
    by_cases h₀ : k₀ = p.1
    · simp [dictGet, h₀]
    · simp at h
      rcases h with h | h


      · rw [h] at h₀; simp at h₀
      · simp [dictGet, h₀, ih h]

/-!  ## Parser lemmas  -/

theorem parse_cell_ok (base : String) (c : List Anchor) (fs : List Folder)
    (gs : List File) (h : parse_cell base c = .ok (fs, gs)) :
    fs = c.filterMap (specAnchorFolder base) ∧ gs = c.filterMap (specAnchorFile base) := by
  induction c generalizing fs gs with
  | nil =>
    simp [parse_cell] at h
    simp [h.1, h.2]
  | cons a rest ih =>
    match ha : a.href with
    | none => simp [parse_cell, ha] at h
    | some href =>
      by_cases hdots : href.startsWith ".."
      · simp only [parse_cell, ha, hdots, if_true] at h
        rcases ih fs gs h with ⟨h₁, h₂⟩
        simp [List.filterMap_cons, specAnchorFolder, specAnchorFile, ha, hdots, h₁, h₂]
      · match hrest : parse_cell base rest with
        | .error e => simp [parse_cell, ha, hdots, hrest] at h
        | .ok (fs', gs') =>
          rcases ih fs' gs' hrest with ⟨h₁, h₂⟩
          by_cases hslash : href.endsWith "/"
          · simp [parse_cell, ha, hdots, hrest, hslash] at h
            rcases h with ⟨h₃, h₄⟩
            subst h₃
            subst h₄
            simp [List.filterMap_cons, specAnchorFolder, specAnchorFile,
              ha, hdots, hslash, h₁, h₂]
          · simp [parse_cell, ha, hdots, hrest, hslash] at h
            rcases h with ⟨h₃, h₄⟩
            subst h₃
            subst h₄
            simp [List.filterMap_cons, specAnchorFolder, specAnchorFile,
              ha, hdots, hslash, h₁, h₂]

theorem parse_cells_ok (base : String) (doc : Doc) (fs : List Folder)
    (gs : List File) (h : parse_cells base doc = .ok (fs, gs)) :
    fs = doc.flatten.filterMap (specAnchorFolder base) ∧
    gs = doc.flatten.filterMap (specAnchorFile base) := by
  induction doc generalizing fs gs with
  | nil =>
    simp [parse_cells] at h
    simp [h.1, h.2]
  | cons c cs ih =>
    match hc : parse_cell base c with
    | .error e => simp [parse_cells, hc] at h
    | .ok (fs₀, gs₀) =>
      match hcs : parse_cells base cs with
      | .error e => simp [parse_cells, hc, hcs] at h
      | .ok (fs₁, gs₁) =>
        simp only [parse_cells, hc, hcs, Except.ok.injEq, Prod.mk.injEq] at h
        rcases parse_cell_ok base c fs₀ gs₀ hc with ⟨e₁, e₂⟩
        rcases ih fs₁ gs₁ hcs with ⟨e₃, e₄⟩
        simp [← h.1, ← h.2, e₁, e₂, e₃, e₄, List.filterMap_append]

theorem parse_cell_total (base : String) (c : List Anchor)
    (h : ∀ a ∈ c, a.href ≠ none) :
    ∃ fs gs, parse_cell base c = .ok (fs, gs) := by
  induction c with
  | nil => exact ⟨[], [], rfl⟩
  | cons a rest ih =>
    have hrest : ∀ a ∈ rest, a.href ≠ none := fun a ha => h a (by simp [ha])
    rcases ih hrest with ⟨fs, gs, hok⟩
    match ha : a.href with
    | none => exact absurd ha (h a (by simp))
    | some href =>
      by_cases hdots : href.startsWith ".."
      · exact ⟨fs, gs, by simp [parse_cell, ha, hdots, hok]⟩
      · by_cases hslash : href.endsWith "/"
        · exact ⟨⟨a.text, urljoin base href⟩ :: fs, gs,
            by simp [parse_cell, ha, hdots, hslash, hok]⟩
        · exact ⟨fs, ⟨a.text, urljoin base href, none⟩ :: gs,
            by simp [parse_cell, ha, hdots, hslash, hok]⟩

theorem parse_cells_total (base : String) (doc : Doc)
    (h : ∀ c ∈ doc, ∀ a ∈ c, a.href ≠ none) :
    ∃ fs gs, parse_cells base doc = .ok (fs, gs) := by
  induction doc with
  | nil => exact ⟨[], [], rfl⟩
  | cons c cs ih =>
    rcases parse_cell_total base c (h c (by simp)) with ⟨fs₀, gs₀, h₀⟩
    rcases ih (fun c' hc' => h c' (by simp [hc'])) with ⟨fs₁, gs₁, h₁⟩
    exact ⟨fs₀ ++ fs₁, gs₀ ++ gs₁, by simp [parse_cells, h₀, h₁]⟩

/-!  ## Cache round-trip lemmas  -/

theorem folders_roundTrip (l : List Folder) :
    (l.map fun f => (⟨f.name, f.url⟩ : NameUrl)).map (fun f => (⟨f.name, f.url⟩ : Folder)) = l := by
  induction l with
  | nil => rfl
  | cons f rest ih => simp [ih]

theorem files_roundTrip (l : List File) :
    (l.map fun f => (⟨f.name, f.url⟩ : NameUrl)).map (fun f => (⟨f.name, f.url, none⟩ : File)) =
      l.map fun f => ⟨f.name, f.url, none⟩ := by
  simp [List.map_map]

theorem folders_roundTrip_comp (l : List Folder) :
    l.map ((fun f : NameUrl => (⟨f.name, f.url⟩ : Folder)) ∘
      (fun f : Folder => (⟨f.name, f.url⟩ : NameUrl))) = l := by
  induction l with
  | nil => rfl
  | cons f rest ih => simp [ih]

theorem lookup_put_fresh (ttl : Int) (st : CacheState) (url : String)
    (folders : List Folder) (files : List File) (T now : Int) (h : now - T ≤ ttl) :
    get_cached_listing ttl (cache_listing st url folders files T) url now =
      (some (folders, files.map fun f => ⟨f.name, f.url, none⟩),
       cache_listing st url folders files T) := by
  have hexp : is_expired ttl now T = false := by
    simp [is_expired]
    omega
  simp [get_cached_listing, cache_listing, dictGet_set_self, hexp, entryListing,
    folders_roundTrip, files_roundTrip, folders_roundTrip_comp]

theorem lookup_put_expired (ttl : Int) (st : CacheState) (url : String)
    (folders : List Folder) (files : List File) (T now : Int) (h : now - T > ttl) :
    (get_cached_listing ttl (cache_listing st url folders files T) url now).1 = none
    ∧ dictGet (url_to_hash url)
        (get_cached_listing ttl (cache_listing st url folders files T) url now).2.memory = none
    ∧ dictGet (url_to_hash url)
        (load_cache_from_disk
          (get_cached_listing ttl (cache_listing st url folders files T) url now).2.disk) = none := by
  have hexp : is_expired ttl now T = true := by
    simp [is_expired]
    omega
  simp [get_cached_listing, cache_listing, dictGet_set_self, hexp,
    load_cache_from_disk, save_cache_to_disk, dictGet_del_self]

/-!  ## Claims about the parser  -/

/-- Claim C1 (amended): for every input in which each anchor inside a
matched name cell carries an href attribute, `parse_html` returns
normally, and absence of the expected structure yields only the
synthesized parent entry. (As stated the claim is false: an anchor with
no href raises `KeyError` instead of being skipped — see
`claim_C1_cex`.) -/
theorem claim_C1 :
    (∀ (base : String) (doc : Doc),
      (∀ c ∈ doc, ∀ a ∈ c, a.href ≠ none) →
        ∃ fs gs, parse_html base doc = Except.ok (fs, gs))
    ∧ (∀ base : String,
        parse_html base [] = Except.ok ([⟨"..", urljoin base ".."⟩], [])) := by
  constructor
  · intro base doc hdoc
    rcases parse_cells_total base doc hdoc with ⟨fs, gs, hok⟩
    exact ⟨⟨"..", urljoin base ".."⟩ :: fs, gs, by simp [parse_html, hok]⟩
  · intro base
    rfl

/-- Counterexample to claim C1 as stated: a single name cell holding one
anchor with no href attribute (HTML `<td class="fb-n"><a>x</a></td>`)
makes `parse_html` raise `KeyError` instead of skipping the anchor. -/
theorem claim_C1_cex :
    parse_html "http://h/" [[⟨"x", none⟩]] = Except.error PyError.keyError := rfl

/-- Witness for claim C1 at a concrete input. -/
theorem claim_C1_witness :
    ∃ fs gs, parse_html "http://h/a/" [[⟨"c", some "c/"⟩, ⟨"d", some "d.mp4"⟩]]
      = Except.ok (fs, gs) :=
  claim_C1.1 "http://h/a/" [[⟨"c", some "c/"⟩, ⟨"d", some "d.mp4"⟩]] (by decide)

/-- Claim C8: whatever `parse_html` returns equals the spec-side
description — the synthetic parent entry first, every anchor whose href
starts with `..` skipped, every remaining href resolved against the
base URL and classified as folder (trailing slash) or file, in document
order; and a document with zero matching name cells yields exactly
`([".."], [])`. -/
theorem claim_C8 :
    (∀ (base : String) (doc : Doc) (res : List Folder × List File),
      parse_html base doc = Except.ok res → res = specParse base doc)
    ∧ (∀ base : String,
        parse_html base [] = Except.ok ([⟨"..", urljoin base ".."⟩], [])) := by
  constructor
  · intro base doc res h
    match hc : parse_cells base doc with
    | .error e => simp [parse_html, hc] at h
    | .ok (fs, gs) =>
      simp only [parse_html, hc] at h
      rcases parse_cells_ok base doc fs gs hc with ⟨h₁, h₂⟩
      simp only [Except.ok.injEq] at h
      rw [← h]
      simp [specParse, h₁, h₂]
  · intro base
    rfl

/-- Witness for claim C8 at a concrete input (the zero-cell document,
whose parse the kernel can evaluate: the string-scanning primitives
inside href classification do not reduce definitionally). -/
theorem claim_C8_witness :
    ([(⟨"..", urljoin "http://h/a/b/" ".."⟩ : Folder)], ([] : List File)) =
      specParse "http://h/a/b/" [] :=
  claim_C8.1 "http://h/a/b/" [] _ rfl

/-!  ## Claims about the fetcher's error classification  -/

/-- Claim C3: `fetch_html_async` classifies every outcome into exactly
one typed error, in priority order — 401 and 403 to AuthenticationError,
404 to NotFoundError, >= 500 to ServerError, any other 4xx to
ConnectionError; a transport timeout to TimeoutError, transport
connection failures and any other transport error to ConnectionError;
a success status returns the body bytes. -/
theorem claim_C3 : ∀ (url : String) (t : Nat) (s : Nat) (b : List Nat),
    ((s = 401 ∨ s = 403) →
      resultKind (fetch_html_async url t (.response s b)) = some .authentication)
    ∧ (s = 404 →
      resultKind (fetch_html_async url t (.response s b)) = some .notFound)
    ∧ (s ≥ 500 →
      resultKind (fetch_html_async url t (.response s b)) = some .server)
    ∧ (400 ≤ s → s < 500 → s ≠ 401 → s ≠ 403 → s ≠ 404 →
      resultKind (fetch_html_async url t (.response s b)) = some .connection)
    ∧ (s < 400 → fetch_html_async url t (.response s b) = .ok b)
    ∧ (resultKind (fetch_html_async url t .timedOut) = some .timeout)
    ∧ (∀ msg, resultKind (fetch_html_async url t (.connectorError msg)) = some .connection)
    ∧ (∀ msg, resultKind (fetch_html_async url t (.clientError msg)) = some .connection) := by
  intro url t s b
  refine ⟨?_, ?_, ?_, ?_, ?_, rfl, fun msg => rfl, fun msg => rfl⟩
  · rintro (rfl | rfl)
    · rfl
    · rfl
  · rintro rfl
    rfl
  · intro h5
    have h1 : s ≠ 401 := by omega
    have h2 : s ≠ 403 := by omega
    have h3 : s ≠ 404 := by omega
    simp [fetch_html_async, resultKind, FetchError.kind, h1, h2, h3, h5]
  · intro h4a h4b h1 h2 h3
    have h5 : ¬ s ≥ 500 := by omega
    simp [fetch_html_async, resultKind, FetchError.kind, h1, h2, h3, h5, h4a]
  · intro hs
    have h1 : s ≠ 401 := by omega
    have h2 : s ≠ 403 := by omega
    have h3 : s ≠ 404 := by omega
    have h5 : ¬ s ≥ 500 := by omega
    have h4 : ¬ s ≥ 400 := by omega
    simp [fetch_html_async, h1, h2, h3, h5, h4]

/-- Witness for claim C3 at concrete inputs: a 503 response is a
ServerError and a 204 response returns the body. -/
theorem claim_C3_witness :
    resultKind (fetch_html_async "u" 30 (.response 503 [1, 2])) = some .server
    ∧ fetch_html_async "u" 30 (.response 204 [1, 2]) = .ok [1, 2] :=
  ⟨(claim_C3 "u" 30 503 [1, 2]).2.2.1 (by omega),
   (claim_C3 "u" 30 204 [1, 2]).2.2.2.2.1 (by omega)⟩

/-!  ## Retry-loop lemmas  -/

theorem range_filter_lt (m n : Nat) (h : m ≤ n) :
    (List.range n).filter (fun j => decide (j < m)) = List.range m := by
  induction n with
  | zero =>
    have hm : m = 0 := by omega
    subst hm
    rfl
  | succ k ih =>
    by_cases hm : m ≤ k
    · rw [List.range_succ, List.filter_append, ih hm]
      have hk : List.filter (fun j => decide (j < m)) [k] = [] := by
        simp
        omega
      rw [hk, List.append_nil]
    · have hm1 : m = k + 1 := by omega
      subst hm1
      apply List.filter_eq_self.mpr
      intro a ha
      simp [List.mem_range] at ha
      simp [ha]

theorem retryGo_absorb (attempts : Nat → Except FetchError (List Nat)) (n : Nat)
    (es : Nat → FetchError) :
    ∀ (k i : Nat) (last : Option FetchError), i + k ≤ n →
    (∀ j, i ≤ j → j < i + k → attempts j = Except.error (es j) ∧ isRetryable (es j) = true) →
    retryGo attempts n i (n - i) last =
      ⟨(retryGo attempts n (i + k) (n - (i + k))
          (if k = 0 then last else some (es (i + k - 1)))).result,
       ((List.range' i k).filter (fun j => decide (j < n - 1))).map (fun j => 2 ^ j)
         ++ (retryGo attempts n (i + k) (n - (i + k))
              (if k = 0 then last else some (es (i + k - 1)))).sleeps⟩ := by
  intro k
  induction k with
  | zero =>
    intro i last hle hpre
    simp
  | succ k ih =>
    intro i last hle hpre
    have hi : i < n := by omega
    have hni : n - i = (n - (i + 1)) + 1 := by omega
    rcases hpre i (Nat.le_refl i) (by omega) with ⟨hai, hri⟩
    have hstep : retryGo attempts n i (n - i) last =
        (if i < n - 1 then
          ⟨(retryGo attempts n (i + 1) (n - (i + 1)) (some (es i))).result,
           2 ^ i :: (retryGo attempts n (i + 1) (n - (i + 1)) (some (es i))).sleeps⟩
         else retryGo attempts n (i + 1) (n - (i + 1)) (some (es i))) := by
      rw [hni]
      simp [retryGo, hai, hri]
    have hrest := ih (i + 1) (some (es i)) (by omega)
      (fun j hj1 hj2 => hpre j (by omega) (by omega))
    have hlast1 : (if k = 0 then some (es i) else some (es (i + 1 + k - 1))) =
        some (es (i + k)) := by
      cases k with
      | zero => rfl
      | succ k' =>
        simp only [Nat.succ_ne_zero, if_false]
        congr 2
        omega
    have hik2 : i + (k + 1) - 1 = i + k := by omega
    have hlast2 : (if k + 1 = 0 then last else some (es (i + (k + 1) - 1))) =
        some (es (i + k)) := by
      simp only [Nat.succ_ne_zero, if_false, hik2]
    have hidx : i + 1 + k = i + (k + 1) := by omega
    rw [hlast1, hidx] at hrest
    rw [hstep, hrest, hlast2]
    by_cases hin : i < n - 1
    · rw [if_pos hin]
      have hrange : List.range' i (k + 1) = i :: List.range' (i + 1) k := rfl
      rw [hrange]
      simp only [List.filter_cons, decide_eq_true_eq, hin, if_pos, List.map_cons]
      simp [hin]
    · rw [if_neg hin]
      have hk0 : k = 0 := by omega
      subst hk0
      have hfil : List.filter (fun j => decide (j < n - 1)) (List.range' i 1) = [] := by
        simp
        omega
      rw [hfil]
      simp

theorem retry_success_at (attempts : Nat → Except FetchError (List Nat))
    (es : Nat → FetchError) (n i : Nat) (b : List Nat) (hi : i < n)
    (hpre : ∀ j, j < i → attempts j = Except.error (es j) ∧ isRetryable (es j) = true)
    (hok : attempts i = .ok b) :
    fetch_html_with_retry attempts n = ⟨.ok b, (List.range i).map (fun j => 2 ^ j)⟩ := by
  have habs := retryGo_absorb attempts n es i 0 none (by omega)
    (fun j hj1 hj2 => hpre j (by omega))
  have hzero : (0 : Nat) + i = i := by omega
  rw [hzero] at habs
  have hni : n - i = (n - (i + 1)) + 1 := by omega
  have hinner : retryGo attempts n i (n - i)
      (if i = 0 then none else some (es (i - 1))) = ⟨.ok b, []⟩ := by
    rw [hni]
    simp [retryGo, hok]
  rw [Nat.sub_zero] at habs
  rw [fetch_html_with_retry, habs, hinner]
  have hfil : (List.range' 0 i).filter (fun j => decide (j < n - 1)) = List.range i := by
    rw [← List.range_eq_range']
    apply List.filter_eq_self.mpr
    intro a ha
    simp [List.mem_range] at ha
    simp
    omega
  rw [hfil]
  simp

theorem retry_terminal_at (attempts : Nat → Except FetchError (List Nat))
    (es : Nat → FetchError) (n i : Nat) (e : FetchError) (hi : i < n)
    (hpre : ∀ j, j < i → attempts j = Except.error (es j) ∧ isRetryable (es j) = true)
    (he : attempts i = .error e) (hnr : isRetryable e = false) :
    fetch_html_with_retry attempts n =
      ⟨.error (.ftp e), (List.range i).map (fun j => 2 ^ j)⟩ := by
  have habs := retryGo_absorb attempts n es i 0 none (by omega)
    (fun j hj1 hj2 => hpre j (by omega))
  have hzero : (0 : Nat) + i = i := by omega
  rw [hzero] at habs
  have hni : n - i = (n - (i + 1)) + 1 := by omega
  have hinner : retryGo attempts n i (n - i)
      (if i = 0 then none else some (es (i - 1))) = ⟨.error (.ftp e), []⟩ := by
    rw [hni]
    simp [retryGo, he, hnr]
  rw [Nat.sub_zero] at habs
  rw [fetch_html_with_retry, habs, hinner]
  have hfil : (List.range' 0 i).filter (fun j => decide (j < n - 1)) = List.range i := by
    rw [← List.range_eq_range']
    apply List.filter_eq_self.mpr
    intro a ha
    simp [List.mem_range] at ha
    simp
    omega
  rw [hfil]
  simp

theorem retry_all_fail (attempts : Nat → Except FetchError (List Nat))
    (es : Nat → FetchError) (n : Nat) (hn : 1 ≤ n)
    (hall : ∀ j, j < n → attempts j = Except.error (es j) ∧ isRetryable (es j) = true) :
    fetch_html_with_retry attempts n =
      ⟨.error (.ftp (es (n - 1))), (List.range (n - 1)).map (fun j => 2 ^ j)⟩ := by
  have habs := retryGo_absorb attempts n es n 0 none (by omega)
    (fun j hj1 hj2 => hall j (by omega))
  have hzero : (0 : Nat) + n = n := by omega
  rw [hzero] at habs
  have hn0 : n ≠ 0 := by omega
  have hinner : retryGo attempts n n (n - n)
      (if n = 0 then none else some (es (n - 1))) = ⟨.error (.ftp (es (n - 1))), []⟩ := by
    rw [Nat.sub_self]
    simp [retryGo, hn0]
  rw [Nat.sub_zero] at habs
  rw [fetch_html_with_retry, habs, hinner]
  have hfil : (List.range' 0 n).filter (fun j => decide (j < n - 1)) =
      List.range (n - 1) := by
    rw [← List.range_eq_range']
    exact range_filter_lt (n - 1) n (by omega)
  rw [hfil]
  simp

theorem retryGo_no_typeError (attempts : Nat → Except FetchError (List Nat)) (n : Nat) :
    ∀ (r i : Nat) (lastO : Option FetchError), (r = 0 → lastO.isSome) →
    (∃ b, (retryGo attempts n i r lastO).result = .ok b) ∨
    (∃ e, (retryGo attempts n i r lastO).result = .error (.ftp e)) := by
  intro r
  induction r with
  | zero =>
    intro i lastO h0
    match lastO, h0 rfl with
    | some e, _ => exact Or.inr ⟨e, rfl⟩
  | succ r ih =>
    intro i lastO h0
    match hai : attempts i with
    | .ok b =>
      exact Or.inl ⟨b, by simp [retryGo, hai]⟩
    | .error e =>
      by_cases hre : isRetryable e
      · have := ih (i + 1) (some e) (fun _ => rfl)
        rcases this with ⟨b, hb⟩ | ⟨e', he'⟩
        · refine Or.inl ⟨b, ?_⟩
          simp [retryGo, hai, hre]
          by_cases hin : i < n - 1
          · simp [hin, hb]
          · simp [hin, hb]
        · refine Or.inr ⟨e', ?_⟩
          simp [retryGo, hai, hre]
          by_cases hin : i < n - 1
          · simp [hin, he']
          · simp [hin, he']
      · refine Or.inr ⟨e, ?_⟩
        simp [retryGo, hai, hre]

/-!  ## Claims about the retry policy  -/

/-- Claim C2: for max_retries ≥ 1 the retry loop (1) classifies exactly
ConnectionError, Timeout and ServerError as retryable and
AuthenticationError and NotFoundError as terminal, (2) propagates a
terminal error immediately with no further attempt or sleep beyond the
back-offs already issued, (3) returns the first successful attempt's
bytes, sleeping exactly 2^attemptIndex seconds before each retry
(1s, 2s, 4s, …), and (4) when every one of the max_retries attempts
fails with a retryable error, raises the error of the last attempt. -/
theorem claim_C2 : ∀ (attempts : Nat → Except FetchError (List Nat)) (n : Nat)
    (es : Nat → FetchError), 1 ≤ n →
    ((∀ m, isRetryable (FetchError.connectionError m) = true
        ∧ isRetryable (FetchError.timeoutError m) = true
        ∧ isRetryable (FetchError.serverError m) = true
        ∧ isRetryable (FetchError.authenticationError m) = false
        ∧ isRetryable (FetchError.notFoundError m) = false)
    ∧ (∀ i e, i < n →
        (∀ j, j < i → attempts j = Except.error (es j) ∧ isRetryable (es j) = true) →
        attempts i = .error e → isRetryable e = false →
        fetch_html_with_retry attempts n =
          ⟨.error (.ftp e), (List.range i).map (fun j => 2 ^ j)⟩)
    ∧ (∀ i b, i < n →
        (∀ j, j < i → attempts j = Except.error (es j) ∧ isRetryable (es j) = true) →
        attempts i = .ok b →
        fetch_html_with_retry attempts n =
          ⟨.ok b, (List.range i).map (fun j => 2 ^ j)⟩)
    ∧ ((∀ j, j < n → attempts j = Except.error (es j) ∧ isRetryable (es j) = true) →
        fetch_html_with_retry attempts n =
          ⟨.error (.ftp (es (n - 1))), (List.range (n - 1)).map (fun j => 2 ^ j)⟩)) := by
  intro attempts n es hn
  refine ⟨fun m => ⟨rfl, rfl, rfl, rfl, rfl⟩, ?_, ?_, ?_⟩
  · intro i e hi hpre he hnr
    exact retry_terminal_at attempts es n i e hi hpre he hnr
  · intro i b hi hpre hok
    exact retry_success_at attempts es n i b hi hpre hok
  · intro hall
    exact retry_all_fail attempts es n hn hall

/-- Witness for claim C2 at a concrete input: attempt 0 times out
(retryable → one 1-second back-off), attempt 1 is a 404 (terminal →
raised immediately, no further attempt). -/
theorem claim_C2_witness :
    fetch_html_with_retry
      (fun i => if i = 0 then .error (.timeoutError "t") else .error (.notFoundError "nf")) 3 =
      ⟨.error (.ftp (.notFoundError "nf")), (List.range 1).map (fun j => 2 ^ j)⟩ :=
  ((claim_C2 (fun i => if i = 0 then .error (.timeoutError "t") else .error (.notFoundError "nf"))
      3 (fun _ => .timeoutError "t") (by omega)).2.1) 1 (.notFoundError "nf") (by omega)
    (by
      intro j hj
      have hj0 : j = 0 := by omega
      subst hj0
      exact ⟨rfl, rfl⟩)
    rfl rfl

/-- Claim C10: with max_retries = 0 the attempt loop never runs,
`last_error` stays `None`, and `raise last_error` raises `TypeError`
(not a taxonomy error); and for every max_retries ≥ 1 the call either
returns fetched bytes or raises an `FTPClientError` from the
taxonomy. -/
theorem claim_C10 : ∀ (attempts : Nat → Except FetchError (List Nat)),
    fetch_html_with_retry attempts 0 = ⟨.error .typeError, []⟩
    ∧ ∀ n, 1 ≤ n →
      (∃ b, (fetch_html_with_retry attempts n).result = .ok b) ∨
      (∃ e, (fetch_html_with_retry attempts n).result = .error (.ftp e)) := by
  intro attempts
  constructor
  · rfl
  · intro n hn
    exact retryGo_no_typeError attempts n n 0 none (fun h0 => absurd h0 (by omega))

/-- Witness for claim C10 at a concrete input. -/
theorem claim_C10_witness :
    (∃ b, (fetch_html_with_retry (fun _ => .ok [1]) 1).result = .ok b) ∨
    (∃ e, (fetch_html_with_retry (fun _ => .ok [1]) 1).result = .error (.ftp e)) :=
  (claim_C10 (fun _ => .ok [1])).2 1 (by omega)

/-!  ## Claims about the cache TTL and round trip  -/

/-- Claim C4: the freshness check is inclusive — after a put at time T,
a lookup at any `now ≤ T + ttl` returns the entry (and leaves the state
unchanged), while a lookup at any `now > T + ttl` returns absent and
purges the expired entry from both the memory tier and the durable
document in which it was observed. -/
theorem claim_C4 : ∀ (ttl : Int) (st : CacheState) (url : String)
    (folders : List Folder) (files : List File) (T now : Int),
    (now ≤ T + ttl →
      get_cached_listing ttl (cache_listing st url folders files T) url now =
        (some (folders, files.map fun f => ⟨f.name, f.url, none⟩),
         cache_listing st url folders files T))
    ∧ (now > T + ttl →
      (get_cached_listing ttl (cache_listing st url folders files T) url now).1 = none
      ∧ dictGet (url_to_hash url)
          (get_cached_listing ttl (cache_listing st url folders files T) url now).2.memory = none
      ∧ dictGet (url_to_hash url)
          (load_cache_from_disk
            (get_cached_listing ttl (cache_listing st url folders files T) url now).2.disk)
          = none) := by
  intro ttl st url folders files T now
  constructor
  · intro h
    exact lookup_put_fresh ttl st url folders files T now (by omega)
  · intro h
    exact lookup_put_expired ttl st url folders files T now (by omega)

/-- Witness for claim C4 at a concrete input: ttl 300, put at 0, lookup
at the inclusive boundary 300 hits; lookup at 301 misses and purges. -/
theorem claim_C4_witness :
    (get_cached_listing 300 (cache_listing initState "u" [⟨"f", "http://h/f/"⟩] [] 0) "u" 300 =
      (some ([⟨"f", "http://h/f/"⟩], []),
       cache_listing initState "u" [⟨"f", "http://h/f/"⟩] [] 0))
    ∧ (get_cached_listing 300 (cache_listing initState "u" [⟨"f", "http://h/f/"⟩] [] 0) "u" 301).1
        = none :=
  ⟨(claim_C4 300 initState "u" [⟨"f", "http://h/f/"⟩] [] 0 300).1 (by omega),
   ((claim_C4 300 initState "u" [⟨"f", "http://h/f/"⟩] [] 0 301).2 (by omega)).1⟩

/-- Claim C6: round trip — `cache_listing` followed by
`get_cached_listing` on the same url (read within the TTL tolerance of
the put) returns the stored listing: folder names and urls exactly, file
names and urls in order (the optional size, which the store does not
serialise, comes back as `none`). -/
theorem claim_C6 : ∀ (ttl : Int) (st : CacheState) (url : String)
    (folders : List Folder) (files : List File) (T T' : Int),
    T' - T ≤ ttl →
    (get_cached_listing ttl (cache_listing st url folders files T) url T').1 =
      some (folders, files.map fun f => ⟨f.name, f.url, none⟩) := by
  intro ttl st url folders files T T' h
  rw [lookup_put_fresh ttl st url folders files T T' h]

/-- Witness for claim C6 at a concrete input. -/
theorem claim_C6_witness :
    (get_cached_listing 300
      (cache_listing initState "u" [⟨"f", "http://h/f/"⟩] [⟨"g", "http://h/g", some 7⟩] 10)
      "u" 10).1 =
      some ([⟨"f", "http://h/f/"⟩], [⟨"g", "http://h/g", none⟩]) :=
  claim_C6 300 initState "u" [⟨"f", "http://h/f/"⟩] [⟨"g", "http://h/g", some 7⟩] 10 10
    (by omega)

/-- Claim C9: a durable file that is missing, unreadable or malformed
JSON loads as the empty document without raising, every lookup against
it is a cache miss, and a store initialized against a malformed file
behaves like one initialized against a missing file (after the first
put the two states even coincide). -/
theorem claim_C9 :
    load_cache_from_disk .malformed = load_cache_from_disk .missing
    ∧ (∀ (ttl : Int) (url : String) (now : Int),
        get_cached_listing ttl ⟨[], .malformed⟩ url now = (none, ⟨[], .malformed⟩))
    ∧ (∀ (ttl : Int) (url : String) (now : Int),
        get_cached_listing ttl ⟨[], .missing⟩ url now = (none, ⟨[], .missing⟩))
    ∧ (∀ (url : String) (folders : List Folder) (files : List File) (now : Int),
        cache_listing ⟨[], .malformed⟩ url folders files now =
          cache_listing ⟨[], .missing⟩ url folders files now) := by
  refine ⟨rfl, fun ttl url now => rfl, fun ttl url now => rfl, fun url folders files now => rfl⟩

/-!  ## Orchestrator lemmas  -/

theorem lookup_miss_shrinks (ttl : Int) (st : CacheState) (url : String) (now : Int)
    (hmiss : (get_cached_listing ttl st url now).1 = none) :
    (∀ k v, dictGet k (get_cached_listing ttl st url now).2.memory = some v →
      dictGet k st.memory = some v)
    ∧ (∀ k v,
        dictGet k (load_cache_from_disk (get_cached_listing ttl st url now).2.disk) = some v →
        dictGet k (load_cache_from_disk st.disk) = some v) := by
  simp only [get_cached_listing] at hmiss ⊢
  cases hm : dictGet (url_to_hash url) st.memory with
  | some entry =>
    by_cases hexp : is_expired ttl now entry.timestamp
    · simp only [hm, hexp, not_true, if_false] at hmiss ⊢
      cases hd : dictGet (url_to_hash url) (load_cache_from_disk st.disk) with
      | some entry2 =>
        by_cases hexp2 : is_expired ttl now entry2.timestamp
        · simp only [hd, hexp2, not_true, if_false] at hmiss ⊢
          simp only [load_cache_from_disk, save_cache_to_disk]
          exact ⟨fun k v hk => dictGet_del_submap _ _ _ _ hk,
                 fun k v hk => dictGet_del_submap _ _ _ _ hk⟩
        · simp [hd, hexp2] at hmiss
      | none =>
        simp only [hd] at hmiss ⊢
        exact ⟨fun k v hk => dictGet_del_submap _ _ _ _ hk, fun k v hk => hk⟩
    · simp [hm, hexp] at hmiss
  | none =>
    simp only [hm] at hmiss ⊢
    cases hd : dictGet (url_to_hash url) (load_cache_from_disk st.disk) with
    | some entry2 =>
      by_cases hexp2 : is_expired ttl now entry2.timestamp
      · simp only [hd, hexp2, not_true, if_false] at hmiss ⊢
        simp only [load_cache_from_disk, save_cache_to_disk]
        exact ⟨fun k v hk => hk, fun k v hk => dictGet_del_submap _ _ _ _ hk⟩
      · simp [hd, hexp2] at hmiss
    | none =>
      simp only [hd] at hmiss ⊢
      exact ⟨fun k v hk => hk, fun k v hk => hk⟩

/-!  ## Claims about the orchestrator's error paths  -/

/-- Claim C5 (amended): when the fetch stage fails with a typed error,
`fetch_html_cached` propagates exactly that error — never upgrading it
to success — and writes nothing to either tier: every binding of the
resulting state was already present with the same value (a lookup on the
miss path may have purged an expired entry, which is the one deviation
from "exactly as they were" — see `claim_C5_cex`); with
`force_refresh = true` the state is exactly unchanged. A success result
is always a genuine cache hit. -/
theorem claim_C5 : ∀ (ttl : Int) (st : CacheState) (url : String) (fr : Bool)
    (e : FetchError) (now : Int),
    (∀ err, (fetch_html_cached ttl st url fr (.error e) now).1 = .error err →
      err = .fetch (.ftp e)
      ∧ (∀ k v, dictGet k (fetch_html_cached ttl st url fr (.error e) now).2.memory = some v →
          dictGet k st.memory = some v)
      ∧ (∀ k v, dictGet k
            (load_cache_from_disk (fetch_html_cached ttl st url fr (.error e) now).2.disk)
            = some v →
          dictGet k (load_cache_from_disk st.disk) = some v)
      ∧ (fr = true → (fetch_html_cached ttl st url fr (.error e) now).2 = st))
    ∧ (∀ listing, (fetch_html_cached ttl st url fr (.error e) now).1 = .ok listing →
        fr = false ∧ (get_cached_listing ttl st url now).1 = some listing) := by
  intro ttl st url fr e now
  cases fr with
  | true =>
    have h1 : fetch_html_cached ttl st url true (.error e) now =
        (.error (.fetch (.ftp e)), st) := rfl
    refine ⟨?_, ?_⟩
    · intro err herr
      rw [h1] at herr
      simp only [Except.error.injEq] at herr
      rw [h1]
      exact ⟨herr.symm, fun k v hk => hk, fun k v hk => hk, fun _ => rfl⟩
    · intro listing hlist
      rw [h1] at hlist
      simp at hlist
  | false =>
    cases hg : (get_cached_listing ttl st url now).1 with
    | some cached =>
      refine ⟨?_, ?_⟩
      · intro err herr
        simp only [fetch_html_cached, if_false, Bool.false_eq_true] at herr
        rw [show get_cached_listing ttl st url now =
            ((get_cached_listing ttl st url now).1, (get_cached_listing ttl st url now).2)
            from rfl, hg] at herr
        simp at herr
      · intro listing hlist
        simp only [fetch_html_cached, if_false, Bool.false_eq_true] at hlist
        rw [show get_cached_listing ttl st url now =
            ((get_cached_listing ttl st url now).1, (get_cached_listing ttl st url now).2)
            from rfl, hg] at hlist
        simp only [Except.ok.injEq] at hlist
        exact ⟨rfl, by simp [hg, hlist]⟩
    | none =>
      have hshrink := lookup_miss_shrinks ttl st url now hg
      refine ⟨?_, ?_⟩
      · intro err herr
        simp only [fetch_html_cached, if_false, Bool.false_eq_true] at herr ⊢
        rw [show get_cached_listing ttl st url now =
            ((get_cached_listing ttl st url now).1, (get_cached_listing ttl st url now).2)
            from rfl, hg] at herr ⊢
        simp only [Except.error.injEq] at herr
        exact ⟨herr.symm, hshrink.1, hshrink.2, fun hcontra => by simp at hcontra⟩
      · intro listing hlist
        simp only [fetch_html_cached, if_false, Bool.false_eq_true] at hlist
        rw [show get_cached_listing ttl st url now =
            ((get_cached_listing ttl st url now).1, (get_cached_listing ttl st url now).2)
            from rfl, hg] at hlist
        simp at hlist

/-- Counterexample to claim C5 as stated: with an expired entry for the
url in both tiers, a failing fetch still propagates the typed error, but
the lookup on the miss path has already purged the expired entry — the
tiers are not left exactly as they were. -/
theorem claim_C5_cex :
    (fetch_html_cached 300 (cache_listing initState "u" [] [] 0) "u" false
        (.error (.serverError "boom")) 1000).1
      = .error (.fetch (.ftp (.serverError "boom")))
    ∧ (fetch_html_cached 300 (cache_listing initState "u" [] [] 0) "u" false
        (.error (.serverError "boom")) 1000).2
      ≠ cache_listing initState "u" [] [] 0 := by decide

/-- Witness for claim C5 at a concrete input: a forced refresh whose
fetch fails leaves the state exactly unchanged. -/
theorem claim_C5_witness :
    (fetch_html_cached 300 initState "u" true (.error (.serverError "x")) 0).2 = initState :=
  ((claim_C5 300 initState "u" true (.serverError "x") 0).1
    (.fetch (.ftp (.serverError "x"))) rfl).2.2.2 rfl

/-!  ## Two-tier invariant lemmas  -/

theorem tierSubset_iff (st : CacheState) :
    tierSubset st = true ↔
      ∀ p ∈ st.memory, (dictGet p.1 (load_cache_from_disk st.disk)).isSome = true := by
  simp [tierSubset, List.all_eq_true]

theorem tierSubset_put (st : CacheState) (url : String)
    (folders : List Folder) (files : List File) (now : Int)
    (h : tierSubset st = true) :
    tierSubset (cache_listing st url folders files now) = true := by
  rw [tierSubset_iff] at h ⊢
  intro p hp
  simp only [cache_listing, load_cache_from_disk, save_cache_to_disk] at hp ⊢
  rcases mem_dictSet _ _ _ p hp with hk | hmem
  · rw [hk, dictGet_set_self]
    rfl
  · by_cases hpk : p.1 = url_to_hash url
    · rw [hpk, dictGet_set_self]
      rfl
    · rw [dictGet_set_ne _ _ _ _ hpk]
      exact h p hmem

theorem tierSubset_lookup (ttl : Int) (st : CacheState) (url : String) (now : Int)
    (h : tierSubset st = true) :
    tierSubset (get_cached_listing ttl st url now).2 = true := by
  rw [tierSubset_iff] at h
  rw [tierSubset_iff]
  intro p hp
  simp only [get_cached_listing] at hp ⊢
  cases hm : dictGet (url_to_hash url) st.memory with
  | some entry =>
    by_cases hexp : is_expired ttl now entry.timestamp
    · -- expired in memory: removed there, then the disk phase runs
      simp only [hm, hexp, not_true, if_false] at hp ⊢
      cases hd : dictGet (url_to_hash url) (load_cache_from_disk st.disk) with
      | some entry2 =>
        by_cases hexp2 : is_expired ttl now entry2.timestamp
        · simp only [hd, hexp2, not_true, if_false] at hp ⊢
          simp only [load_cache_from_disk, save_cache_to_disk] at hp ⊢
          rcases mem_dictDel _ _ p hp with ⟨hmem, hne⟩
          rw [dictGet_del_ne _ _ _ hne]
          exact h p hmem
        · simp [hd, hexp2] at hp ⊢
          rcases mem_dictSet _ _ _ p hp with hk | hmem
          · rw [hk, hd]
            rfl
          · exact h p (mem_dictDel _ _ p hmem).1
      | none =>
        simp only [hd] at hp ⊢
        exact h p (mem_dictDel _ _ p hp).1
    · -- fresh in memory: state unchanged
      simp only [hm, hexp, not_false_iff, if_true] at hp ⊢
      exact h p hp
  | none =>
    simp only [hm] at hp ⊢
    cases hd : dictGet (url_to_hash url) (load_cache_from_disk st.disk) with
    | some entry2 =>
      by_cases hexp2 : is_expired ttl now entry2.timestamp
      · simp only [hd, hexp2, not_true, if_false] at hp ⊢
        simp only [load_cache_from_disk, save_cache_to_disk] at hp ⊢
        have hpk : p.1 ≠ url_to_hash url := by
          intro hk
          have := mem_dictGet_isSome st.memory p hp
          rw [hk, hm] at this
          simp at this
        rw [dictGet_del_ne _ _ _ hpk]
        exact h p hp
      · simp [hd, hexp2] at hp ⊢
        rcases mem_dictSet _ _ _ p hp with hk | hmem
        · rw [hk, hd]
          rfl
        · exact h p hmem
    | none =>
      simp only [hd] at hp ⊢
      exact h p hp

theorem tierSubset_invalidate (st : CacheState) (url : String)
    (h : tierSubset st = true) :
    tierSubset (invalidate_cache st url) = true := by
  rw [tierSubset_iff] at h
  rw [tierSubset_iff]
  intro p hp
  simp only [invalidate_cache] at hp ⊢
  by_cases hd : (dictGet (url_to_hash url) (load_cache_from_disk st.disk)).isSome
  · simp only [hd, if_true] at hp ⊢
    simp only [load_cache_from_disk, save_cache_to_disk] at hp ⊢
    rcases mem_dictDel _ _ p hp with ⟨hmem, hne⟩
    rw [dictGet_del_ne _ _ _ hne]
    exact h p hmem
  · simp only [hd, if_false] at hp ⊢
    rcases mem_dictDel _ _ p hp with ⟨hmem, hne⟩
    exact h p hmem

theorem tierSubset_clearAll (st : CacheState) :
    tierSubset (clear_all_cache st) = true := rfl

theorem tierSubset_applyOp (ttl : Int) (st : CacheState) (op : CacheOp)
    (hop : op.isPurge = false) (h : tierSubset st = true) :
    tierSubset (applyOp ttl st op) = true := by
  cases op with
  | put url folders files now => exact tierSubset_put st url folders files now h
  | lookup url now => exact tierSubset_lookup ttl st url now h
  | invalidate url => exact tierSubset_invalidate st url h
  | clearAll => exact tierSubset_clearAll st
  | purgeExpired now => exact absurd hop (by simp [CacheOp.isPurge])

theorem tierSubset_applyOps (ttl : Int) :
    ∀ (ops : List CacheOp) (st : CacheState), tierSubset st = true →
    (∀ op ∈ ops, op.isPurge = false) →
    tierSubset (applyOps ttl st ops) = true := by
  intro ops
  induction ops with
  | nil => intro st h _; exact h
  | cons op rest ih =>
    intro st h hops
    exact ih (applyOp ttl st op)
      (tierSubset_applyOp ttl st op (hops op (by simp)) h)
      (fun op' hop' => hops op' (by simp [hop']))

/-!  ## Claims about the two-tier invariant  -/

/-- Claim C7 (amended): after every sequence of put, lookup, invalidate
and clearAll operations from the initial state, every key of the
in-process tier is present in the durable document. (As stated — with
`purgeExpired` included — the claim is false: the sweep removes expired
entries from the durable document only, leaving them in the in-process
tier; see `claim_C7_cex`.) -/
theorem claim_C7 : ∀ (ttl : Int) (ops : List CacheOp),
    (∀ op ∈ ops, op.isPurge = false) →
    tierSubset (applyOps ttl initState ops) = true := by
  intro ttl ops hops
  exact tierSubset_applyOps ttl ops initState rfl hops

/-- Counterexample to claim C7 as stated: put a listing at time 0, then
run `cleanup_expired` at time 1000 (ttl 300) — the durable document
drops the expired entry while the in-process tier keeps it, so the
in-process tier is no longer a subset of the durable document. -/
theorem claim_C7_cex :
    tierSubset (applyOps 300 initState
      [CacheOp.put "u" [] [] 0, CacheOp.purgeExpired 1000]) = false := by decide

/-- Witness for claim C7 at a concrete operation sequence. -/
theorem claim_C7_witness :
    tierSubset (applyOps 300 initState
      [CacheOp.put "u" [] [] 0, CacheOp.lookup "u" 50, CacheOp.invalidate "u",
       CacheOp.clearAll]) = true :=
  claim_C7 300
    [CacheOp.put "u" [] [] 0, CacheOp.lookup "u" 50, CacheOp.invalidate "u",
     CacheOp.clearAll] (by decide)

end SamFTP
